import Mathlib

/-!
Shallow embedding of the crawl4ai-rag utility layer:
`src/utils.py` (circuit breaker, retryable-error classification, chat/embedding
fallback orchestrators, dimension reconciliation, Supabase ingestion) and
`src/crawl4ai_mcp.py` (`smart_chunk_markdown`).

Python strings are modelled as `List Char`; Python dicts keyed by endpoint
strings as functions `String → _`; wall-clock instants as natural-number
seconds; exceptions as `Except String`.  The float comparison
`idx > chunk_size * 0.3` in the chunker is modelled by the exact rational
comparison `3 * chunk_size < 10 * idx`; the two differ only when the binary
double closest to `chunk_size * 0.3` rounds across the integer `idx`, which
never happens for the window sizes the claims mention.
-/

namespace Crawl4ai

/-! ## Python `sub in s` (substring containment)

Model of CPython `str.__contains__`: scan positions left to right and test
whether `sub` starts there.  -/

def containsSub (hay sub : List Char) : Bool :=
  if sub.isPrefixOf hay then true
  else
    match hay with
    | [] => false
    | _ :: t => containsSub t sub

/-! ## `is_retryable_error` (`src/utils.py`)

The Python function stringifies the exception and lowercases it; we take the
stringified error as input and model `.lower()` as a character map. -/

def pyLower (s : List Char) : List Char := s.map Char.toLower

def retryable_codes : List (List Char) :=
  ["503".toList, "429".toList, "500".toList, "502".toList, "504".toList]

def retryable_messages : List (List Char) :=
  ["service unavailable".toList, "rate limit".toList, "timeout".toList,
   "connection error".toList, "no available server".toList,
   "server error".toList]

def is_retryable_error (error : List Char) : Bool :=
  let error_str := pyLower error
  (retryable_codes.any fun code => containsSub error_str code) ||
  (retryable_messages.any fun message => containsSub error_str message)

/-! ## `handle_dimension_mismatch` (`src/utils.py`)

Embedding components are modelled as rationals; the function only moves and
truncates them and pads with the literal `0.0`. -/

def handle_dimension_mismatch (embeddings : List (List ℚ)) (target_dims : ℕ) :
    List (List ℚ) :=
  match embeddings with
  | [] => []
  | first :: _ =>
    if first.isEmpty then embeddings
    else
      let current_dims := first.length
      if current_dims = target_dims then embeddings
      else if target_dims < current_dims then
        embeddings.map fun embedding => embedding.take target_dims
      else
        let padding_size := target_dims - current_dims
        embeddings.map fun embedding =>
          embedding ++ List.replicate padding_size 0

/-! ## Circuit breaker (`src/utils.py`)

`_consecutive_errors` (a dict read with `.get(key, 0)`) is a total function
`String → ℕ`; `_circuit_breaker_until` (a dict of datetimes) is
`String → Option ℕ` with `none` for an absent key; `datetime.now()` is an
explicit `now : ℕ` in seconds, so `timedelta(minutes=5)` is `300`.  The
`trace` field instruments the embedding: it records each call to
`record_error` / `record_success` so that call counts are observable. -/

inductive CallEv where
  | recordError (key error : String)
  | recordSuccess (key : String)
deriving DecidableEq, Repr

structure CBState where
  consecutive_errors : String → ℕ
  circuit_breaker_until : String → Option ℕ
  trace : List CallEv

def updf {α : Type} (f : String → α) (key : String) (v : α) : String → α :=
  fun k => if k = key then v else f k

def is_circuit_breaker_open (st : CBState) (now : ℕ) (endpoint_key : String) :
    Bool × CBState :=
  match st.circuit_breaker_until endpoint_key with
  | some t =>
    if now < t then (true, st)
    else
      (false,
       { st with
         circuit_breaker_until := updf st.circuit_breaker_until endpoint_key none,
         consecutive_errors := updf st.consecutive_errors endpoint_key 0 })
  | none => (false, st)

def record_error (st : CBState) (now threshold : ℕ)
    (endpoint_key : String) (error : String) : CBState :=
  let st := { st with trace := st.trace ++ [.recordError endpoint_key error] }
  if is_retryable_error error.toList then
    let n := st.consecutive_errors endpoint_key + 1
    let st := { st with consecutive_errors := updf st.consecutive_errors endpoint_key n }
    if threshold ≤ n then
      { st with
        circuit_breaker_until :=
          updf st.circuit_breaker_until endpoint_key (some (now + 300)) }
    else st
  else st

def record_success (st : CBState) (endpoint_key : String) : CBState :=
  { st with
    trace := st.trace ++ [.recordSuccess endpoint_key],
    consecutive_errors := updf st.consecutive_errors endpoint_key 0 }

/-! ## Retry loops and the fallback orchestrators (`src/utils.py`)

`make_chat_completion_with_fallback` and `create_embeddings_with_fallback`
are modelled over an environment that fixes the configuration reads
(`USE_*_FALLBACK`, model/key presence) and gives the outcome of each network
attempt as an oracle `ℕ → Except String _` (attempt index ↦ response or
raised-error string).  Sleeping, jitter and the semaphore do not affect the
values computed and are dropped; `datetime.now()` is the single `now` of the
environment. -/

/-- The inner `for attempt in range(max_retries)` loop: return the first
successful response, retry on a retryable error while attempts remain,
otherwise stop with the definitive error.  `fuel` is the number of attempts
still allowed including the current one, so the call site passes
`max_retries`; the `fuel = 0` case is never reached from there. -/
def run_attempts {α : Type} (oracle : ℕ → Except String α) :
    ℕ → ℕ → Except String α
  | _, 0 => .error "no attempt was made"
  | i, fuel + 1 =>
    match oracle i with
    | .ok r => .ok r
    | .error e =>
      if is_retryable_error e.toList && decide (0 < fuel) then
        run_attempts oracle (i + 1) fuel
      else .error e

structure ChatFallbackEnv where
  use_fallback : Bool
  threshold : ℕ
  now : ℕ
  primary_key : String
  fallback_key : String
  clientResult : Except String Bool
  primaryOracle : ℕ → Except String String
  fallback_configured : Bool
  fallbackOracle : ℕ → Except String String

def chat_combined_error (primary_error fallback_error : String) : String :=
  "Both primary and fallback chat models failed. Primary: " ++ primary_error ++
    ". Fallback: " ++ fallback_error

def make_chat_completion_with_fallback (env : ChatFallbackEnv) (st : CBState) :
    Except String String × CBState :=
  let max_retries := 3
  let pchk := is_circuit_breaker_open st env.now env.primary_key
  let primary_phase : Except (Option String) String × CBState :=
    if pchk.1 then (.error (some "Circuit breaker open"), pchk.2)
    else
      match env.clientResult with
      | .error e =>
        (.error (some e), record_error pchk.2 env.now env.threshold env.primary_key e)
      | .ok is_fallback =>
        if is_fallback then (.error none, pchk.2)
        else
          match run_attempts env.primaryOracle 0 max_retries with
          | .ok r => (.ok r, record_success pchk.2 env.primary_key)
          | .error e =>
            (.error (some e), record_error pchk.2 env.now env.threshold env.primary_key e)
  match primary_phase with
  | (.ok r, st) => (.ok r, st)
  | (.error none, st) => (.error "Unexpected error in chat completion system", st)
  | (.error (some pe), st) =>
    if env.use_fallback then
      let fchk := is_circuit_breaker_open st env.now env.fallback_key
      if fchk.1 then
        (.error "Both primary and fallback models have circuit breakers open", fchk.2)
      else if !env.fallback_configured then
        let fe := "Fallback model not configured"
        (.error (chat_combined_error pe fe),
         record_error fchk.2 env.now env.threshold env.fallback_key fe)
      else
        match run_attempts env.fallbackOracle 0 max_retries with
        | .ok r => (.ok r, record_success fchk.2 env.fallback_key)
        | .error fe =>
          let st1 := record_error fchk.2 env.now env.threshold env.fallback_key fe
          let st2 := record_error st1 env.now env.threshold env.fallback_key fe
          (.error (chat_combined_error pe fe), st2)
    else (.error pe, st)

structure EmbeddingFallbackEnv where
  use_fallback : Bool
  threshold : ℕ
  now : ℕ
  target_dims : ℕ
  primary_key : String
  fallback_key : String
  clientResult : Except String Bool
  primaryOracle : ℕ → Except String (List (List ℚ))
  fallback_configured : Bool
  fallbackOracle : ℕ → Except String (List (List ℚ))

def embedding_combined_error (primary_error fallback_error : String) : String :=
  "Both primary and fallback embedding models failed. Primary: " ++ primary_error ++
    ". Fallback: " ++ fallback_error

def create_embeddings_with_fallback (env : EmbeddingFallbackEnv)
    (texts : List String) (st : CBState) :
    Except String (List (List ℚ)) × CBState :=
  if texts.isEmpty then (.ok [], st)
  else
    let max_retries := 3
    let pchk := is_circuit_breaker_open st env.now env.primary_key
    let primary_phase : Except (Option String) (List (List ℚ)) × CBState :=
      if pchk.1 then (.error (some "Circuit breaker open"), pchk.2)
      else
        match env.clientResult with
        | .error e =>
          (.error (some e), record_error pchk.2 env.now env.threshold env.primary_key e)
        | .ok is_fallback =>
          if is_fallback then (.error none, pchk.2)
          else
            match run_attempts env.primaryOracle 0 max_retries with
            | .ok embs =>
              (.ok (handle_dimension_mismatch embs env.target_dims),
               record_success pchk.2 env.primary_key)
            | .error e =>
              (.error (some e), record_error pchk.2 env.now env.threshold env.primary_key e)
    match primary_phase with
    | (.ok embs, st) => (.ok embs, st)
    | (.error none, st) =>
      (.error "Unexpected error in embedding fallback system", st)
    | (.error (some pe), st) =>
      if env.use_fallback then
        let fchk := is_circuit_breaker_open st env.now env.fallback_key
        if fchk.1 then
          (.error "Both primary and fallback embedding models have circuit breakers open",
           fchk.2)
        else if !env.fallback_configured then
          let fe := "Fallback embedding model not configured"
          (.error (embedding_combined_error pe fe),
           record_error fchk.2 env.now env.threshold env.fallback_key fe)
        else
          match run_attempts env.fallbackOracle 0 max_retries with
          | .ok embs =>
            (.ok (handle_dimension_mismatch embs env.target_dims),
             record_success fchk.2 env.fallback_key)
          | .error fe =>
            let st1 := record_error fchk.2 env.now env.threshold env.fallback_key fe
            let st2 := record_error st1 env.now env.threshold env.fallback_key fe
            (.error (embedding_combined_error pe fe), st2)
      else (.error pe, st)

/-- `create_embeddings_batch`: catches any failure of the fallback system and
substitutes `len(texts)` copies of the `EMBEDDING_DIMENSIONS`-sized zero
vector; the empty input short-circuits to `[]`.  Total by construction: the
Python `except Exception` is the `.error` branch. -/
def create_embeddings_batch (env : EmbeddingFallbackEnv)
    (texts : List String) (st : CBState) : List (List ℚ) × CBState :=
  if texts.isEmpty then ([], st)
  else
    match create_embeddings_with_fallback env texts st with
    | (.ok embs, st) => (embs, st)
    | (.error _, st) =>
      (List.replicate texts.length (List.replicate env.target_dims 0), st)

/-! ## `smart_chunk_markdown` (`src/crawl4ai_mcp.py`)

`text[start:end]` slicing is modelled by recursing on the remaining suffix:
each iteration looks at `window = rem.take chunk_size`, picks a cut length
and continues on `rem.drop cut`.  `str.rfind` is a left-to-right scan
remembering the last position where the pattern is a prefix of the suffix
(`-1` becomes `none`), and `.strip()` removes the six ASCII whitespace
characters from both ends (the texts in the claims contain no exotic Unicode
whitespace). -/

def rfindSubGo (sub : List Char) : List Char → ℕ → Option ℕ → Option ℕ
  | [], _, acc => acc
  | l@(_ :: t), i, acc =>
    rfindSubGo sub t (i + 1) (if sub.isPrefixOf l then some i else acc)

def rfindSub (s sub : List Char) : Option ℕ := rfindSubGo sub s 0 none

def isPySpace (c : Char) : Bool :=
  c = ' ' || c = '\t' || c = '\n' || c = '\r' || c = '\x0b' || c = '\x0c'

def pyStrip (s : List Char) : List Char :=
  ((s.dropWhile isPySpace).reverse.dropWhile isPySpace).reverse

/-- The `elif "\n\n" in chunk: ... elif ". " in chunk: ...` part of the cut
selection, reached when there is no code fence past 30% of the window.  Note
that a window containing `"\n\n"` never reaches the sentence test, even if
its last `"\n\n"` lies at or before 30%. -/
def smart_chunk_cut_rest (chunk_size : ℕ) (window : List Char) : ℕ :=
  match rfindSub window "\n\n".toList with
  | some last_break =>
    if 3 * chunk_size < 10 * last_break then last_break else chunk_size
  | none =>
    match rfindSub window ". ".toList with
    | some last_period =>
      if 3 * chunk_size < 10 * last_period then last_period + 1 else chunk_size
    | none => chunk_size

/-- Cut length (`end - start`) chosen for a non-final window. -/
def smart_chunk_cut (chunk_size : ℕ) (window : List Char) : ℕ :=
  match rfindSub window "```".toList with
  | some code_block =>
    if 3 * chunk_size < 10 * code_block then code_block
    else smart_chunk_cut_rest chunk_size window
  | none => smart_chunk_cut_rest chunk_size window

/-- Loop body of `smart_chunk_markdown`.  The `while start < text_length`
loop is modelled by structural recursion on a `fuel` bound; the top-level
call passes `fuel = text.length`, which always suffices because every
iteration consumes at least one character (see the termination theorem, and
`smart_chunk_go_fuel_invariant` for fuel-independence).  Python never
terminates when `chunk_size = 0` (the cut length degenerates to `0` and
`start` stops advancing); that case is fenced off so the Lean function is
total, and every claim about the chunker assumes `1 ≤ chunk_size`. -/
def smart_chunk_go (chunk_size : ℕ) : ℕ → List Char → List (List Char)
  | 0, _ => []
  | fuel + 1, rem =>
    if rem.isEmpty then []
    else if rem.length ≤ chunk_size then [pyStrip rem]
    else if chunk_size = 0 then []
    else
      let c := smart_chunk_cut chunk_size (rem.take chunk_size)
      let piece := pyStrip (rem.take c)
      let rest := smart_chunk_go chunk_size fuel (rem.drop c)
      if piece.isEmpty then rest else piece :: rest

def smart_chunk_markdown (text : List Char) (chunk_size : ℕ) :
    List (List Char) :=
  smart_chunk_go chunk_size text.length text

/-! ## `add_documents_to_supabase` (`src/utils.py`)

The `crawled_pages` table is a list of rows; only the columns the claim
speaks about (url, chunk number, content) are modelled.  The function is
modelled on its success path: the single batched delete succeeds, and each
batched insert succeeds, so the final table contents do not depend on the
batch size. -/

structure CrawledPageRow where
  url : String
  chunk_number : ℕ
  content : String
deriving DecidableEq, Repr

/-- The rows built from the parallel `urls` / `chunk_numbers` / `contents`
lists (the per-batch slicing concatenates back to this list). -/
def build_rows (urls : List String) (chunk_numbers : List ℕ)
    (contents : List String) : List CrawledPageRow :=
  (urls.zip (chunk_numbers.zip contents)).map fun x =>
    ⟨x.1, x.2.1, x.2.2⟩

def add_documents_to_supabase (table : List CrawledPageRow)
    (urls : List String) (chunk_numbers : List ℕ) (contents : List String) :
    List CrawledPageRow :=
  let unique_urls := urls.dedup
  let remaining := table.filter fun r => !unique_urls.contains r.url
  remaining ++ build_rows urls chunk_numbers contents

/-! ## Spec-side definitions for refinement comparisons -/

/-- Modelled from the spec's words for the cut-point claim: cut at the last
code fence past 30%, **else** at the last blank-line boundary past 30%,
**else** at the last `". "` past 30%, else at the raw window edge — i.e. the
sentence test is reached whenever the blank-line test yields no cut. -/
def claimed_cut (chunk_size : ℕ) (window : List Char) : ℕ :=
  let fence_ok :=
    match rfindSub window "```".toList with
    | some code_block =>
      if 3 * chunk_size < 10 * code_block then some code_block else none
    | none => none
  match fence_ok with
  | some code_block => code_block
  | none =>
    let break_ok :=
      match rfindSub window "\n\n".toList with
      | some last_break =>
        if 3 * chunk_size < 10 * last_break then some last_break else none
      | none => none
    match break_ok with
    | some last_break => last_break
    | none =>
      match rfindSub window ". ".toList with
      | some last_period =>
        if 3 * chunk_size < 10 * last_period then last_period + 1 else chunk_size
      | none => chunk_size

/-- The 12,000-character document of the spec's end-to-end scenario: a fenced
code block spans characters 4800–5100 (opening fence at 4800, closing fence
ending at 5100), surrounded by fence-free prose. -/
def scenario_text : List Char :=
  List.replicate 4800 'a' ++ ("```".toList ++ (List.replicate 294 'b' ++
    ("```".toList ++ List.replicate 6900 'd')))

/-- Trace events that are `record_error` calls for the given endpoint key. -/
def isRecordErrorFor (key : String) : CallEv → Bool
  | .recordError k _ => k = key
  | .recordSuccess _ => false

/-! Concrete environments and states used by witnesses and counterexamples:
fallback enabled, threshold 3, `now = 0`, a primary that always raises a
retryable `503` and a fallback that always raises a retryable `502`. -/

def chat_env_w : ChatFallbackEnv :=
  ⟨true, 3, 0, "p", "f", Except.ok false, fun _ => Except.error "boom 503",
    true, fun _ => Except.error "fb 502"⟩

def emb_env_w : EmbeddingFallbackEnv :=
  ⟨true, 3, 0, 5, "ep", "ef", Except.ok false,
    fun _ => Except.error "boom 503", true, fun _ => Except.error "fb 502"⟩

def cb_st_w : CBState := ⟨fun _ => 0, fun _ => none, []⟩

/-- A state whose fallback-chat breaker is already open until `t = 1000`. -/
def cb_st_open_f : CBState :=
  ⟨fun _ => 0, fun k => if k = "f" then some 1000 else none, []⟩

/-! ## Basic lemmas about the embedded operations -/

/-- `containsSub` agrees with Mathlib's infix relation. -/
theorem containsSub_infix_iff (hay sub : List Char) :
    containsSub hay sub = true ↔ sub <:+: hay := by
  induction hay with
  | nil =>
    constructor
    · intro h
      rw [containsSub] at h
      cases sub with
      | nil => exact List.infix_rfl
      | cons a s => simp [List.isPrefixOf] at h
    · intro h
      have hs : sub = [] := List.eq_nil_of_infix_nil h
      subst hs
      rw [containsSub]
      rfl
  | cons c t ih =>
    rw [containsSub]
    split
    · rename_i hpre
      simp only [List.isPrefixOf_iff_prefix] at hpre
      exact iff_of_true rfl hpre.isInfix
    · rename_i hpre
      simp only [List.isPrefixOf_iff_prefix] at hpre
      rw [ih]
      constructor
      · intro h
        exact h.trans (List.suffix_cons c t).isInfix
      · intro h
        rcases List.infix_cons_iff.mp h with h1 | h2
        · exact absurd h1 hpre
        · exact h2

theorem smart_chunk_cut_pos (chunk_size : ℕ) (window : List Char)
    (hcs : 1 ≤ chunk_size) : 1 ≤ smart_chunk_cut chunk_size window := by
  have hrest : 1 ≤ smart_chunk_cut_rest chunk_size window := by
    rw [smart_chunk_cut_rest]
    rcases h : rfindSub window "\n\n".toList with _ | last_break
    · rcases h2 : rfindSub window ". ".toList with _ | last_period
      · exact hcs
      · dsimp only
        split
        · omega
        · exact hcs
    · dsimp only
      split
      · omega
      · exact hcs
  rw [smart_chunk_cut]
  rcases h : rfindSub window "```".toList with _ | code_block
  · exact hrest
  · dsimp only
    split
    · omega
    · exact hrest

theorem rfindSubGo_bound (sub : List Char) (l : List Char) (j : ℕ)
    (acc : Option ℕ)
    (hacc : ∀ k, acc = some k → sub.length + k ≤ j + l.length) :
    ∀ i, rfindSubGo sub l j acc = some i → sub.length + i ≤ j + l.length := by
  induction l generalizing j acc with
  | nil =>
    intro i hi
    rw [rfindSubGo] at hi
    exact hacc i hi
  | cons c t ih =>
    intro i hi
    rw [rfindSubGo] at hi
    have step := ih (j + 1) (if sub.isPrefixOf (c :: t) then some j else acc)
      (by
        intro k hk
        split at hk
        · rename_i hpre
          cases hk
          have hlen : sub.length ≤ (c :: t).length :=
            (List.isPrefixOf_iff_prefix.mp hpre).length_le
          simp only [List.length_cons] at hlen ⊢
          omega
        · have := hacc k hk
          simp only [List.length_cons] at this ⊢
          omega) i hi
    simp only [List.length_cons] at step ⊢
    omega

theorem rfindSub_bound (s sub : List Char) (i : ℕ)
    (h : rfindSub s sub = some i) : sub.length + i ≤ s.length := by
  have := rfindSubGo_bound sub s 0 none (by intro k hk; cases hk) i h
  omega

theorem smart_chunk_cut_le (chunk_size : ℕ) (window : List Char)
    (hw : window.length ≤ chunk_size) :
    smart_chunk_cut chunk_size window ≤ chunk_size := by
  have hrest : smart_chunk_cut_rest chunk_size window ≤ chunk_size := by
    rw [smart_chunk_cut_rest]
    rcases h : rfindSub window "\n\n".toList with _ | last_break
    · rcases h2 : rfindSub window ". ".toList with _ | last_period
      · exact le_refl _
      · have hb := rfindSub_bound window ". ".toList last_period h2
        have hl : (". ".toList).length = 2 := by decide
        dsimp only
        split
        · omega
        · exact le_refl _
    · have hb := rfindSub_bound window "\n\n".toList last_break h
      have hl : ("\n\n".toList).length = 2 := by decide
      dsimp only
      split
      · omega
      · exact le_refl _
  rw [smart_chunk_cut]
  rcases h : rfindSub window "```".toList with _ | code_block
  · exact hrest
  · have hb := rfindSub_bound window "```".toList code_block h
    have hl : ("```".toList).length = 3 := by decide
    dsimp only
    split
    · omega
    · exact hrest

theorem updf_same {α : Type} (f : String → α) (key : String) (v : α) :
    updf f key v key = v := by
  simp [updf]

theorem updf_ne {α : Type} (f : String → α) (key k : String) (v : α)
    (h : k ≠ key) : updf f key v k = f k := by
  simp [updf, h]

theorem record_error_counter_self (st : CBState) (now threshold : ℕ)
    (key e : String) (h : is_retryable_error e.toList = true) :
    (record_error st now threshold key e).consecutive_errors key
      = st.consecutive_errors key + 1 := by
  rw [record_error]
  simp only [h, if_true]
  split <;> simp [updf]

theorem record_error_breaker_self (st : CBState) (now threshold : ℕ)
    (key e : String) (h : is_retryable_error e.toList = true) :
    (record_error st now threshold key e).circuit_breaker_until key
      = if threshold ≤ st.consecutive_errors key + 1 then some (now + 300)
        else st.circuit_breaker_until key := by
  rw [record_error]
  simp only [h, if_true]
  split
  · rename_i hth
    simp [updf, hth]
  · rename_i hth
    simp [hth]

theorem record_error_counter_ne (st : CBState) (now threshold : ℕ)
    (key e k : String) (hk : k ≠ key) :
    (record_error st now threshold key e).consecutive_errors k
      = st.consecutive_errors k := by
  rw [record_error]
  split
  · dsimp only
    split <;> simp [updf, hk]
  · rfl

theorem record_error_breaker_ne (st : CBState) (now threshold : ℕ)
    (key e k : String) (hk : k ≠ key) :
    (record_error st now threshold key e).circuit_breaker_until k
      = st.circuit_breaker_until k := by
  rw [record_error]
  split
  · dsimp only
    split <;> simp [updf, hk]
  · rfl

theorem record_error_trace (st : CBState) (now threshold : ℕ) (key e : String) :
    (record_error st now threshold key e).trace
      = st.trace ++ [CallEv.recordError key e] := by
  rw [record_error]
  split
  · dsimp only
    split <;> rfl
  · rfl

theorem record_error_not_retryable (st : CBState) (now threshold : ℕ)
    (key e : String) (h : is_retryable_error e.toList = false) :
    (record_error st now threshold key e).consecutive_errors
        = st.consecutive_errors ∧
    (record_error st now threshold key e).circuit_breaker_until
        = st.circuit_breaker_until := by
  rw [record_error]
  dsimp only
  rw [if_neg (by simp only [Bool.not_eq_true]; exact h)]
  exact ⟨rfl, rfl⟩

theorem record_success_counter (st : CBState) (key : String) :
    (record_success st key).consecutive_errors key = 0 := by
  simp [record_success, updf]

theorem record_success_counter_ne (st : CBState) (key k : String)
    (hk : k ≠ key) :
    (record_success st key).consecutive_errors k = st.consecutive_errors k := by
  simp [record_success, updf, hk]

theorem record_success_breaker (st : CBState) (key : String) :
    (record_success st key).circuit_breaker_until = st.circuit_breaker_until :=
  rfl

theorem record_success_trace (st : CBState) (key : String) :
    (record_success st key).trace = st.trace ++ [CallEv.recordSuccess key] :=
  rfl

theorem is_open_of_none (st : CBState) (now : ℕ) (key : String)
    (h : st.circuit_breaker_until key = none) :
    is_circuit_breaker_open st now key = (false, st) := by
  rw [is_circuit_breaker_open, h]

theorem is_open_of_lt (st : CBState) (now t : ℕ) (key : String)
    (h : st.circuit_breaker_until key = some t) (hlt : now < t) :
    is_circuit_breaker_open st now key = (true, st) := by
  rw [is_circuit_breaker_open, h]
  simp [hlt]

theorem is_open_of_ge (st : CBState) (now t : ℕ) (key : String)
    (h : st.circuit_breaker_until key = some t) (hge : t ≤ now) :
    (is_circuit_breaker_open st now key).1 = false ∧
    (is_circuit_breaker_open st now key).2.circuit_breaker_until key = none ∧
    (is_circuit_breaker_open st now key).2.consecutive_errors key = 0 ∧
    (is_circuit_breaker_open st now key).2.trace = st.trace := by
  rw [is_circuit_breaker_open, h]
  have : ¬ now < t := by omega
  simp [this, updf]

/-- Folding `record_error` over a list of retryable errors adds the list's
length to the key's consecutive-error counter, and opens the breaker until
`now + 300` exactly when the counter reaches the threshold along the way. -/
theorem foldl_record_error_retryable (now threshold : ℕ) (key : String) :
    ∀ (errs : List String) (st : CBState),
      (∀ e ∈ errs, is_retryable_error e.toList = true) →
      ((errs.foldl (fun s e => record_error s now threshold key e) st).consecutive_errors
            key
          = st.consecutive_errors key + errs.length) ∧
      ((errs.foldl (fun s e => record_error s now threshold key e) st).circuit_breaker_until
            key
          = if threshold ≤ st.consecutive_errors key + errs.length ∧ 1 ≤ errs.length
            then some (now + 300) else st.circuit_breaker_until key) := by
  intro errs
  induction errs with
  | nil =>
    intro st _
    simp
  | cons e es ih =>
    intro st h
    have he : is_retryable_error e.toList = true := h e (by simp)
    have hes : ∀ e' ∈ es, is_retryable_error e'.toList = true := by
      intro e' m
      exact h e' (by simp [m])
    obtain ⟨ihc, ihb⟩ := ih (record_error st now threshold key e) hes
    rw [List.foldl_cons]
    constructor
    · rw [ihc, record_error_counter_self st now threshold key e he]
      simp only [List.length_cons]
      omega
    · rw [ihb, record_error_counter_self st now threshold key e he,
        record_error_breaker_self st now threshold key e he]
      simp only [List.length_cons, List.length_nil]
      split_ifs with h1 h2 h3 h4 <;> first | rfl | omega

/-! ## Claim C1: circuit-breaker state machine -/

/-- **C1** (invariants).  For every endpoint key: after `threshold`
consecutive retryable failures recorded via `record_error` from a zero
counter, the breaker is open until `now + 300` (the 5-minute cooldown);
`is_circuit_breaker_open` returns `true` exactly while `now' < open_until`;
checked at or after `open_until` it returns `false` and, as a side effect,
deletes the open-until entry and resets the consecutive-error counter to 0
(lazy reset); `record_success` always resets the counter to 0; and
`record_error` with a non-retryable error changes neither the counter nor
the open-until map. -/
theorem circuit_breaker_state_machine (threshold now : ℕ) (key : String) :
    (∀ (st : CBState) (errs : List String),
        1 ≤ threshold → errs.length = threshold →
        (∀ e ∈ errs, is_retryable_error e.toList = true) →
        st.consecutive_errors key = 0 →
        (errs.foldl (fun s e => record_error s now threshold key e)
            st).circuit_breaker_until key = some (now + 300)) ∧
    (∀ (st : CBState) (t now' : ℕ), st.circuit_breaker_until key = some t →
        ((is_circuit_breaker_open st now' key).1 = true ↔ now' < t)) ∧
    (∀ (st : CBState) (now' : ℕ), st.circuit_breaker_until key = none →
        (is_circuit_breaker_open st now' key).1 = false) ∧
    (∀ (st : CBState) (t now' : ℕ), st.circuit_breaker_until key = some t →
        t ≤ now' →
        (is_circuit_breaker_open st now' key).1 = false ∧
        (is_circuit_breaker_open st now' key).2.circuit_breaker_until key
            = none ∧
        (is_circuit_breaker_open st now' key).2.consecutive_errors key = 0) ∧
    (∀ st : CBState, (record_success st key).consecutive_errors key = 0) ∧
    (∀ (st : CBState) (e : String), is_retryable_error e.toList = false →
        (record_error st now threshold key e).consecutive_errors
            = st.consecutive_errors ∧
        (record_error st now threshold key e).circuit_breaker_until
            = st.circuit_breaker_until) := by
  refine ⟨?_, ?_, ?_, ?_, ?_, ?_⟩
  · intro st errs hth hlen hret hc0
    have h := (foldl_record_error_retryable now threshold key errs st hret).2
    rw [h, hc0, hlen]
    rw [if_pos ⟨by omega, by omega⟩]
  · intro st t now' hsome
    rw [is_circuit_breaker_open, hsome]
    by_cases hlt : now' < t
    · simp [hlt]
    · simp [hlt]
  · intro st now' hnone
    rw [is_open_of_none st now' key hnone]
  · intro st t now' hsome hge
    obtain ⟨a, b, c, _⟩ := is_open_of_ge st now' t key hsome hge
    exact ⟨a, b, c⟩
  · exact fun st => record_success_counter st key
  · exact fun st e h => record_error_not_retryable st now threshold key e h

/-- Witness for C1 at `threshold = 3`, `now = 100`, `key = "k"`: three
retryable errors open the breaker until `400`; a check at `150` reports
open, a check at `400` reports closed and clears the entry; `record_success`
zeroes the counter; a non-retryable error is a no-op on the counters. -/
theorem circuit_breaker_state_machine_witness :
    ((["timeout", "503", "rate limit"].foldl
        (fun s e => record_error s 100 3 "k" e)
        ⟨fun _ => 0, fun _ => none, []⟩).circuit_breaker_until "k"
        = some 400) ∧
    ((is_circuit_breaker_open
        ⟨fun _ => 0, fun k => if k = "k" then some 400 else none, []⟩
        150 "k").1 = true) ∧
    ((is_circuit_breaker_open
        ⟨fun _ => 0, fun k => if k = "k" then some 400 else none, []⟩
        400 "k").1 = false) ∧
    ((is_circuit_breaker_open
        ⟨fun _ => 0, fun k => if k = "k" then some 400 else none, []⟩
        400 "k").2.circuit_breaker_until "k" = none) ∧
    ((record_success ⟨fun _ => 0, fun _ => none, []⟩ "k").consecutive_errors
        "k" = 0) ∧
    ((record_error ⟨fun _ => 0, fun _ => none, []⟩ 100 3 "k"
        "invalid api key").consecutive_errors
        = (CBState.mk (fun _ => 0) (fun _ => none) []).consecutive_errors) := by
  obtain ⟨h1, h2, h3, h4, h5, h6⟩ := circuit_breaker_state_machine 3 100 "k"
  refine ⟨h1 _ ["timeout", "503", "rate limit"] (by omega) (by decide)
      (by decide) rfl, ?_, ?_, ?_, h5 _, (h6 _ "invalid api key" (by decide)).1⟩
  · exact (h2 _ 400 150 (by decide)).mpr (by omega)
  · exact (h4 _ 400 400 (by decide) (le_refl 400)).1
  · exact (h4 _ 400 400 (by decide) (le_refl 400)).2.1

/-! ## Claim C6: retryable-error classification -/

/-- **C6** (functional correctness).  `is_retryable_error` returns `true`
precisely when the lowercased error string contains one of the retryable
status-code or message substrings, and in particular returns `false` on
`"invalid api key"`. -/
theorem is_retryable_error_classification :
    (∀ error : String,
        is_retryable_error error.toList = true ↔
          ∃ sub ∈ retryable_codes ++ retryable_messages,
            sub <:+: pyLower error.toList) ∧
    is_retryable_error "invalid api key".toList = false := by
  constructor
  · intro error
    rw [is_retryable_error]
    simp only [List.any_eq_true, containsSub_infix_iff, Bool.or_eq_true,
      List.mem_append]
    constructor
    · rintro (⟨c, hc, hi⟩ | ⟨m, hm, hi⟩)
      · exact ⟨c, Or.inl hc, hi⟩
      · exact ⟨m, Or.inr hm, hi⟩
    · rintro ⟨s, hs | hs, hi⟩
      · exact Or.inl ⟨s, hs, hi⟩
      · exact Or.inr ⟨s, hs, hi⟩
  · decide

/-! ## Claim C3: dimension reconciliation -/

/-- **C3 counterexample**.  The claim quantifies over *every* list of
vectors, but the code inspects only the first vector's length: the
heterogeneous input `[[1,2],[3]]` with `target_dim = 2` is returned
unchanged, and its second vector does not have 2 components. -/
theorem handle_dimension_mismatch_counterexample :
    handle_dimension_mismatch [[(1 : ℚ), 2], [3]] 2 = [[1, 2], [3]] ∧
    ¬ (∀ v ∈ handle_dimension_mismatch [[(1 : ℚ), 2], [3]] 2,
        v.length = 2) := by
  constructor
  · rfl
  · intro hall
    have h := hall [3]
      (by rw [show handle_dimension_mismatch [[(1 : ℚ), 2], [3]] 2
            = [[1, 2], [3]] from rfl]; simp)
    simp at h

/-- **C3 (amended)**.  For inputs whose vectors all share one length `d`
(as produced by a single embedding API response) with `d > 0` (or a zero
target), `handle_dimension_mismatch` preserves the list length, makes every
vector exactly `target_dims` long (truncating when longer, right-padding
with zeros when shorter), and is the identity when `d = target_dims`. -/
theorem handle_dimension_mismatch_spec (embeddings : List (List ℚ))
    (target_dims d : ℕ) (hd : ∀ v ∈ embeddings, v.length = d)
    (hpos : 0 < d ∨ target_dims = 0) :
    (handle_dimension_mismatch embeddings target_dims).length
        = embeddings.length ∧
    (∀ v ∈ handle_dimension_mismatch embeddings target_dims,
        v.length = target_dims) ∧
    (d = target_dims →
        handle_dimension_mismatch embeddings target_dims = embeddings) := by
  cases embeddings with
  | nil => simp [handle_dimension_mismatch]
  | cons first rest =>
    have hfirst : first.length = d := hd first (by simp)
    rw [handle_dimension_mismatch]
    dsimp only
    by_cases hd0 : d = 0
    · subst hd0
      have hemp : first.isEmpty = true := by
        cases first with
        | nil => rfl
        | cons a t => simp at hfirst
      rw [if_pos hemp]
      have htd : target_dims = 0 := by
        rcases hpos with h | h
        · omega
        · exact h
      subst htd
      exact ⟨rfl, fun v hv => hd v hv, fun _ => rfl⟩
    · have hemp : first.isEmpty = false := by
        cases first with
        | nil => simp at hfirst; omega
        | cons a t => rfl
      rw [hemp]
      simp only [Bool.false_eq_true, if_false]
      by_cases heq : first.length = target_dims
      · rw [if_pos heq]
        exact ⟨rfl, fun v hv => by rw [hd v hv, ← hfirst, heq], fun _ => rfl⟩
      · rw [if_neg heq]
        by_cases hlt : target_dims < first.length
        · rw [if_pos hlt]
          refine ⟨by simp, ?_, ?_⟩
          · intro v hv
            obtain ⟨u, hu, rfl⟩ := List.mem_map.mp hv
            rw [List.length_take, hd u hu]
            omega
          · intro hdt
            exact absurd (hfirst.trans hdt) heq
        · rw [if_neg hlt]
          refine ⟨by simp, ?_, ?_⟩
          · intro v hv
            obtain ⟨u, hu, rfl⟩ := List.mem_map.mp hv
            rw [List.length_append, List.length_replicate, hd u hu, hfirst]
            omega
          · intro hdt
            exact absurd (hfirst.trans hdt) heq

/-- Witness for C3 (amended) at `embeddings = [[1,2],[3,4]]`, `d = 2`,
`target_dims = 3` (padding case). -/
theorem handle_dimension_mismatch_spec_witness :
    (handle_dimension_mismatch [[(1 : ℚ), 2], [3, 4]] 3).length
        = ([[(1 : ℚ), 2], [3, 4]] : List (List ℚ)).length ∧
    (∀ v ∈ handle_dimension_mismatch [[(1 : ℚ), 2], [3, 4]] 3,
        v.length = 3) ∧
    (2 = 3 →
        handle_dimension_mismatch [[(1 : ℚ), 2], [3, 4]] 3
          = [[(1 : ℚ), 2], [3, 4]]) :=
  handle_dimension_mismatch_spec [[(1 : ℚ), 2], [3, 4]] 3 2
    (by
      intro v hv
      simp only [List.mem_cons, List.not_mem_nil, or_false] at hv
      rcases hv with rfl | rfl <;> rfl)
    (Or.inl (by omega))

/-! ## Claim C5: ingestion idempotence -/

theorem build_rows_url_mem (urls : List String) (chunk_numbers : List ℕ)
    (contents : List String) :
    ∀ r ∈ build_rows urls chunk_numbers contents, r.url ∈ urls := by
  intro r hr
  obtain ⟨x, hx, rfl⟩ := List.mem_map.mp hr
  rcases x with ⟨a, b, c⟩
  exact (List.of_mem_zip hx).1

theorem filter_not_contained_build_rows (urls : List String)
    (chunk_numbers : List ℕ) (contents : List String) :
    (build_rows urls chunk_numbers contents).filter
        (fun r => !(urls.dedup.contains r.url)) = [] := by
  rw [List.filter_eq_nil_iff]
  intro r hr
  have hm : r.url ∈ urls := build_rows_url_mem urls chunk_numbers contents r hr
  simp [List.elem_iff, List.mem_dedup, hm]

/-- **C5** (algebraic/relational).  `add_documents_to_supabase` deletes every
row whose url occurs in the call before inserting the new rows, so the
operation is idempotent: ingesting the same `(urls, chunks)` twice leaves
the table exactly as one ingestion does; for each url of the call the row
count equals the number of chunks supplied for it (never twice that), and
with a single repeated url and equal-length inputs it is exactly
`len(chunks)`. -/
theorem add_documents_to_supabase_idempotent (table : List CrawledPageRow)
    (urls : List String) (chunk_numbers : List ℕ) (contents : List String) :
    add_documents_to_supabase
        (add_documents_to_supabase table urls chunk_numbers contents)
        urls chunk_numbers contents
      = add_documents_to_supabase table urls chunk_numbers contents ∧
    (∀ u, u ∈ urls →
      ((add_documents_to_supabase
          (add_documents_to_supabase table urls chunk_numbers contents)
          urls chunk_numbers contents).filter
            (fun r => r.url = u)).length
        = ((build_rows urls chunk_numbers contents).filter
            (fun r => r.url = u)).length) ∧
    (∀ u, (∀ v ∈ urls, v = u) → urls ≠ [] →
      chunk_numbers.length = urls.length → contents.length = urls.length →
      ((add_documents_to_supabase
          (add_documents_to_supabase table urls chunk_numbers contents)
          urls chunk_numbers contents).filter
            (fun r => r.url = u)).length = urls.length) := by
  have hidem :
      add_documents_to_supabase
          (add_documents_to_supabase table urls chunk_numbers contents)
          urls chunk_numbers contents
        = add_documents_to_supabase table urls chunk_numbers contents := by
    rw [add_documents_to_supabase, add_documents_to_supabase]
    rw [List.filter_append, List.filter_filter]
    rw [List.filter_congr
      (fun r _ => Bool.and_self (!(urls.dedup.contains r.url)))]
    rw [filter_not_contained_build_rows, List.append_nil]
  have hcount : ∀ u, u ∈ urls →
      ((add_documents_to_supabase table urls chunk_numbers contents).filter
          (fun r => r.url = u)).length
        = ((build_rows urls chunk_numbers contents).filter
            (fun r => r.url = u)).length := by
    intro u hu
    rw [add_documents_to_supabase]
    rw [List.filter_append]
    have hleft : (table.filter
        (fun r => !(urls.dedup.contains r.url))).filter
          (fun r => decide (r.url = u)) = [] := by
      rw [List.filter_eq_nil_iff]
      intro r hr hru
      have hnc := (List.mem_filter.mp hr).2
      simp only [decide_eq_true_eq] at hru
      rw [hru] at hnc
      simp [List.elem_iff, List.mem_dedup] at hnc
      exact hnc hu
    rw [hleft, List.nil_append]
  refine ⟨hidem, ?_, ?_⟩
  · intro u hu
    rw [hidem]
    exact hcount u hu
  · intro u hall hne hlen1 hlen2
    have hu : u ∈ urls := by
      cases urls with
      | nil => exact absurd rfl hne
      | cons v vs => rw [← hall v (by simp)]; simp
    rw [hidem, hcount u hu]
    have hfull : (build_rows urls chunk_numbers contents).filter
        (fun r => r.url = u) = build_rows urls chunk_numbers contents := by
      rw [List.filter_eq_self]
      intro r hr
      simp [hall r.url (build_rows_url_mem urls chunk_numbers contents r hr)]
    rw [hfull, build_rows, List.length_map, List.length_zip,
      List.length_zip, hlen1, hlen2]
    omega

/-- Witness for C5: ingesting two chunks for one url twice leaves exactly
two rows for that url. -/
theorem add_documents_to_supabase_idempotent_witness :
    ((add_documents_to_supabase
        (add_documents_to_supabase [⟨"u", 9, "old"⟩] ["u", "u"] [0, 1]
          ["c0", "c1"])
        ["u", "u"] [0, 1] ["c0", "c1"]).filter
          (fun r => r.url = "u")).length = (["u", "u"] : List String).length :=
  (add_documents_to_supabase_idempotent [⟨"u", 9, "old"⟩] ["u", "u"] [0, 1]
      ["c0", "c1"]).2.2 "u" (by decide) (by decide) rfl rfl

/-! ## Chunker lemmas -/

theorem filter_dropWhile_eq (p q : Char → Bool)
    (hpq : ∀ c, p c = true → q c = false) :
    ∀ l : List Char, (l.dropWhile p).filter q = l.filter q := by
  intro l
  induction l with
  | nil => rfl
  | cons c t ih =>
    rw [List.dropWhile_cons]
    by_cases hc : p c
    · rw [if_pos hc, ih, List.filter_cons, hpq c hc]
      simp
    · rw [if_neg hc]

theorem pyStrip_sublist (l : List Char) : List.Sublist (pyStrip l) l := by
  rw [pyStrip]
  have h1 : List.Sublist
      ((l.dropWhile isPySpace).reverse.dropWhile isPySpace)
      (l.dropWhile isPySpace).reverse := List.dropWhile_sublist _
  have h2 := List.reverse_sublist.mpr h1
  rw [List.reverse_reverse] at h2
  exact h2.trans (List.dropWhile_sublist _)

theorem pyStrip_length_le (l : List Char) : (pyStrip l).length ≤ l.length :=
  (pyStrip_sublist l).length_le

theorem pyStrip_filter (l : List Char) :
    (pyStrip l).filter (fun c => !isPySpace c)
      = l.filter (fun c => !isPySpace c) := by
  have hpq : ∀ c, isPySpace c = true → (!isPySpace c) = false := by
    intro c hc
    simp [hc]
  rw [pyStrip, List.filter_reverse, filter_dropWhile_eq _ _ hpq,
    List.filter_reverse, List.reverse_reverse, filter_dropWhile_eq _ _ hpq]

/-- Combined invariant of the chunking loop: every produced chunk fits in
the window, the concatenation of the chunks is a sublist of the input whose
non-whitespace content is the input's, the number of chunks is at most the
input length, and the result does not depend on the fuel bound once the
fuel covers the input length. -/
theorem smart_chunk_go_spec (cs : ℕ) (hcs : 1 ≤ cs) :
    ∀ (n : ℕ) (rem : List Char), rem.length ≤ n →
      (∀ chunk ∈ smart_chunk_go cs n rem, chunk.length ≤ cs) ∧
      List.Sublist (smart_chunk_go cs n rem).flatten rem ∧
      ((smart_chunk_go cs n rem).flatten.filter fun c => !isPySpace c)
          = rem.filter (fun c => !isPySpace c) ∧
      (smart_chunk_go cs n rem).length ≤ rem.length ∧
      (∀ n', rem.length ≤ n' → smart_chunk_go cs n' rem = smart_chunk_go cs n rem) := by
  intro n
  induction n with
  | zero =>
    intro rem hlen
    have hnil : rem = [] := List.eq_nil_of_length_eq_zero (by omega)
    subst hnil
    refine ⟨by simp [smart_chunk_go], by simp [smart_chunk_go],
      by simp [smart_chunk_go], by simp [smart_chunk_go], ?_⟩
    intro n' _
    cases n' with
    | zero => rfl
    | succ m => simp [smart_chunk_go]
  | succ n ih =>
    intro rem hlen
    by_cases hemp : rem.isEmpty
    · have hnil : rem = [] := by
        cases rem
        · rfl
        · simp [List.isEmpty] at hemp
      subst hnil
      refine ⟨by simp [smart_chunk_go], by simp [smart_chunk_go],
        by simp [smart_chunk_go], by simp [smart_chunk_go], ?_⟩
      intro n' _
      cases n' with
      | zero => simp [smart_chunk_go]
      | succ m => simp [smart_chunk_go]
    · have hne : 1 ≤ rem.length := by
        cases rem
        · simp [List.isEmpty] at hemp
        · simp
      by_cases hle : rem.length ≤ cs
      · have heq : smart_chunk_go cs (n + 1) rem = [pyStrip rem] := by
          rw [smart_chunk_go, if_neg hemp, if_pos hle]
        refine ⟨?_, ?_, ?_, ?_, ?_⟩
        · intro chunk hc
          rw [heq] at hc
          simp only [List.mem_singleton] at hc
          subst hc
          exact le_trans (pyStrip_length_le rem) hle
        · rw [heq]
          simpa using pyStrip_sublist rem
        · rw [heq]
          simpa using pyStrip_filter rem
        · rw [heq]
          simpa using hne
        · intro n' hn'
          rw [heq]
          cases n' with
          | zero => omega
          | succ m => rw [smart_chunk_go, if_neg hemp, if_pos hle]
      · have h0 : ¬ cs = 0 := by omega
        have heq : smart_chunk_go cs (n + 1) rem =
            (if (pyStrip (rem.take (smart_chunk_cut cs (rem.take cs)))).isEmpty
             then smart_chunk_go cs n
                (rem.drop (smart_chunk_cut cs (rem.take cs)))
             else pyStrip (rem.take (smart_chunk_cut cs (rem.take cs)))
                :: smart_chunk_go cs n
                  (rem.drop (smart_chunk_cut cs (rem.take cs)))) := by
          rw [smart_chunk_go, if_neg hemp, if_neg hle, if_neg h0]
        obtain ⟨c, hgc⟩ : ∃ c, smart_chunk_cut cs (rem.take cs) = c := ⟨_, rfl⟩
        rw [hgc] at heq
        have hcpos : 1 ≤ c := hgc ▸ smart_chunk_cut_pos cs (rem.take cs) hcs
        have hcle : c ≤ cs :=
          hgc ▸ smart_chunk_cut_le cs (rem.take cs)
            (by rw [List.length_take]; omega)
        have hdrop : (rem.drop c).length ≤ n := by
          rw [List.length_drop]
          omega
        obtain ⟨ihb, ihs, ihf, ihn, ihinv⟩ := ih (rem.drop c) hdrop
        have hpiece_len : (pyStrip (rem.take c)).length ≤ cs := by
          have h := pyStrip_length_le (rem.take c)
          rw [List.length_take] at h
          omega
        have hfilter_split :
            rem.filter (fun ch => !isPySpace ch)
              = (rem.take c).filter (fun ch => !isPySpace ch)
                ++ (rem.drop c).filter (fun ch => !isPySpace ch) := by
          conv_lhs => rw [← List.take_append_drop c rem]
          rw [List.filter_append]
        by_cases hp : (pyStrip (rem.take c)).isEmpty
        · have hpnil : pyStrip (rem.take c) = [] := by
            cases hh : pyStrip (rem.take c)
            · rfl
            · rw [hh] at hp
              simp [List.isEmpty] at hp
          rw [if_pos hp] at heq
          have htfilter : (rem.take c).filter (fun ch => !isPySpace ch) = [] := by
            rw [← pyStrip_filter, hpnil]
            rfl
          refine ⟨?_, ?_, ?_, ?_, ?_⟩
          · intro chunk hc
            rw [heq] at hc
            exact ihb chunk hc
          · rw [heq]
            exact ihs.trans (List.drop_sublist c rem)
          · rw [heq, ihf, hfilter_split, htfilter, List.nil_append]
          · rw [heq]
            refine le_trans ihn ?_
            rw [List.length_drop]
            omega
          · intro n' hn'
            rw [heq]
            cases n' with
            | zero => omega
            | succ m =>
              rw [smart_chunk_go, if_neg hemp, if_neg hle, if_neg h0]
              dsimp only
              rw [hgc, if_pos hp]
              exact ihinv m (by rw [List.length_drop]; omega)
        · rw [if_neg hp] at heq
          refine ⟨?_, ?_, ?_, ?_, ?_⟩
          · intro chunk hc
            rw [heq] at hc
            rcases List.mem_cons.mp hc with rfl | hm
            · exact hpiece_len
            · exact ihb chunk hm
          · rw [heq, List.flatten_cons]
            conv_rhs => rw [← List.take_append_drop c rem]
            exact List.Sublist.append (pyStrip_sublist _) ihs
          · rw [heq, List.flatten_cons, List.filter_append, pyStrip_filter, ihf,
              hfilter_split]
          · rw [heq]
            simp only [List.length_cons]
            have h2 := ihn
            rw [List.length_drop] at h2
            omega
          · intro n' hn'
            rw [heq]
            cases n' with
            | zero => omega
            | succ m =>
              rw [smart_chunk_go, if_neg hemp, if_neg hle, if_neg h0]
              dsimp only
              rw [hgc, if_neg hp]
              rw [ihinv m (by rw [List.length_drop]; omega)]

/-! ## Claim C8: chunker boundedness and losslessness -/

/-- **C8** (functional correctness).  For `max_size = N ≥ 1` every chunk has
length at most `N`; the chunks concatenated in order form a sublist of the
text (characters are only ever dropped, never reordered or invented), and
the dropped characters are exactly whitespace trimmed at chunk boundaries:
filtering whitespace away, the concatenation equals the text.  The function
is deterministic because it is a function. -/
theorem smart_chunk_markdown_bounded_lossless (text : List Char) (N : ℕ)
    (hN : 1 ≤ N) :
    (∀ chunk ∈ smart_chunk_markdown text N, chunk.length ≤ N) ∧
    List.Sublist (smart_chunk_markdown text N).flatten text ∧
    ((smart_chunk_markdown text N).flatten.filter fun c => !isPySpace c)
        = text.filter fun c => !isPySpace c := by
  obtain ⟨a, b, c, _⟩ := smart_chunk_go_spec N hN text.length text (le_refl _)
  exact ⟨a, b, c⟩

/-- Witness for C8 on a small two-chunk document with `N = 12`. -/
theorem smart_chunk_markdown_bounded_lossless_witness :
    (∀ chunk ∈ smart_chunk_markdown "hello there. general text".toList 12,
        chunk.length ≤ 12) ∧
    List.Sublist
        (smart_chunk_markdown "hello there. general text".toList 12).flatten
        "hello there. general text".toList ∧
    ((smart_chunk_markdown "hello there. general text".toList 12).flatten.filter
        fun c => !isPySpace c)
        = "hello there. general text".toList.filter fun c => !isPySpace c :=
  smart_chunk_markdown_bounded_lossless "hello there. general text".toList 12
    (by omega)

/-! ## Claim C10: chunker termination -/

/-- **C10** (termination/resources).  For every `chunk_size ≥ 1` the loop
makes progress: the chosen cut length is at least 1 in every iteration, so
the loop runs at most `text.length` iterations; consequently the fuel bound
`text.length` used by `smart_chunk_markdown` is exact (any larger fuel gives
the same finite list) and the number of chunks is at most `text.length`. -/
theorem smart_chunk_markdown_terminating (chunk_size : ℕ)
    (hcs : 1 ≤ chunk_size) :
    (∀ window : List Char, 1 ≤ smart_chunk_cut chunk_size window) ∧
    (∀ text : List Char,
        (smart_chunk_markdown text chunk_size).length ≤ text.length) ∧
    (∀ (text : List Char) (fuel : ℕ), text.length ≤ fuel →
        smart_chunk_go chunk_size fuel text = smart_chunk_markdown text chunk_size) := by
  refine ⟨fun w => smart_chunk_cut_pos chunk_size w hcs, fun text => ?_,
    fun text fuel hf => ?_⟩
  · exact (smart_chunk_go_spec chunk_size hcs text.length text
      (le_refl _)).2.2.2.1
  · exact (smart_chunk_go_spec chunk_size hcs text.length text
      (le_refl _)).2.2.2.2 fuel hf

/-- Witness for C10 at `chunk_size = 7` and a concrete 16-character text. -/
theorem smart_chunk_markdown_terminating_witness :
    (∀ window : List Char, 1 ≤ smart_chunk_cut 7 window) ∧
    (∀ text : List Char,
        (smart_chunk_markdown text 7).length ≤ text.length) ∧
    (∀ (text : List Char) (fuel : ℕ), text.length ≤ fuel →
        smart_chunk_go 7 fuel text = smart_chunk_markdown text 7) :=
  smart_chunk_markdown_terminating 7 (by omega)

/-! ## Claim C7: cut-point selection -/

/-- Scanning `rfindSubGo` over a block of a character that can never start a
match just advances the position counter. -/
theorem rfindSubGo_skip_block (sub : List Char) (a : Char)
    (hpre : ∀ rest : List Char, sub.isPrefixOf (a :: rest) = false) :
    ∀ (n : ℕ) (t : List Char) (j : ℕ) (acc : Option ℕ),
      rfindSubGo sub (List.replicate n a ++ t) j acc
        = rfindSubGo sub t (j + n) acc := by
  intro n
  induction n with
  | zero =>
    intro t j acc
    simp [List.replicate]
  | succ m ih =>
    intro t j acc
    rw [List.replicate_succ, List.cons_append, rfindSubGo, hpre]
    simp only [Bool.false_eq_true, if_false]
    rw [ih t (j + 1) acc]
    congr 1
    omega

theorem scenario_window :
    scenario_text.take 5000
      = List.replicate 4800 'a'
          ++ ('`' :: '`' :: '`' :: List.replicate 197 'b') := by
  rw [scenario_text]
  rw [List.take_append_eq_append_take, List.take_replicate,
    List.length_replicate]
  rw [show min 5000 4800 = 4800 from rfl, show (5000 - 4800 : ℕ) = 200 from rfl]
  rw [List.take_append_eq_append_take]
  rw [show List.take 200 "```".toList = '`' :: '`' :: '`' :: [] from rfl,
    show (200 - ("```".toList).length : ℕ) = 197 from rfl]
  rw [List.take_append_eq_append_take, List.take_replicate,
    List.length_replicate]
  rw [show min 197 294 = 197 from rfl, show (197 - 294 : ℕ) = 0 from rfl,
    List.take_zero, List.append_nil]
  rfl

set_option maxRecDepth 4000 in
theorem scenario_rfind :
    rfindSub
        (List.replicate 4800 'a'
          ++ ('`' :: '`' :: '`' :: List.replicate 197 'b'))
        "```".toList = some 4800 := by
  rw [rfindSub,
    rfindSubGo_skip_block "```".toList 'a' (fun rest => rfl) 4800
      ('`' :: '`' :: '`' :: List.replicate 197 'b') 0 none]
  rw [Nat.zero_add]
  decide

theorem scenario_cut : smart_chunk_cut 5000 (scenario_text.take 5000) = 4800 := by
  rw [scenario_window, smart_chunk_cut, scenario_rfind]
  norm_num

theorem dropWhile_replicate_of_neg (p : Char → Bool) (a : Char)
    (hp : p a = false) (n : ℕ) :
    List.dropWhile p (List.replicate n a) = List.replicate n a := by
  cases n with
  | zero => rfl
  | succ m =>
    rw [List.replicate_succ, List.dropWhile_cons, hp]
    simp

theorem pyStrip_replicate_a :
    pyStrip (List.replicate 4800 'a') = List.replicate 4800 'a' := by
  rw [pyStrip, dropWhile_replicate_of_neg isPySpace 'a' rfl,
    List.reverse_replicate, dropWhile_replicate_of_neg isPySpace 'a' rfl,
    List.reverse_replicate]

theorem scenario_take_4800 :
    scenario_text.take 4800 = List.replicate 4800 'a' := by
  rw [scenario_text, List.take_append_eq_append_take, List.take_replicate,
    List.length_replicate]
  rw [show min 4800 4800 = 4800 from rfl, show (4800 - 4800 : ℕ) = 0 from rfl,
    List.take_zero, List.append_nil]

theorem scenario_length : scenario_text.length = 12000 := by
  rw [scenario_text]
  simp only [List.length_append, List.length_replicate,
    show ("```".toList).length = 3 from rfl]

theorem scenario_first_chunk :
    (smart_chunk_markdown scenario_text 5000).head?
      = some (List.replicate 4800 'a') := by
  rw [smart_chunk_markdown, scenario_length]
  rw [show (12000 : ℕ) = 11999 + 1 from rfl, smart_chunk_go]
  rw [if_neg (by
    rw [List.isEmpty_iff]
    intro h
    have := scenario_length
    rw [h] at this
    simp at this)]
  rw [if_neg (by rw [scenario_length]; omega)]
  rw [if_neg (by omega)]
  dsimp only
  rw [scenario_cut, scenario_take_4800, pyStrip_replicate_a]
  rw [if_neg (by
    rw [List.isEmpty_iff]
    intro h
    have h2 := congrArg List.length h
    rw [List.length_replicate] at h2
    simp at h2)]
  rfl

/-- **C7 counterexample**.  `claimed_cut` is the cut rule as the claim
words it (fence past 30%, *else* blank line past 30%, *else* sentence past
30%, else window edge).  On the text `"\n\nabcd. efghijk"` with
`max_size = 10` the first window contains a blank line only at position 0
(not past 30%) and a `". "` at position 6 (past 30%): the claimed rule cuts
at 7, but the code cuts at the raw window edge 10 because the `elif` chain
never reaches the sentence test when the window contains any `"\n\n"`. -/
theorem smart_chunk_cut_claimed_counterexample :
    claimed_cut 10 ("\n\nabcd. efghijk".toList.take 10) = 7 ∧
    smart_chunk_cut 10 ("\n\nabcd. efghijk".toList.take 10) = 10 ∧
    smart_chunk_markdown "\n\nabcd. efghijk".toList 10
      = ["abcd. ef".toList, "ghijk".toList] :=
  ⟨by decide, by decide, by decide⟩

/-- **C7 (amended)**.  For every non-final window, the cut is: the last code
fence when it lies past 30% of the window; otherwise, if the window contains
a blank line, the last blank line when past 30% and the raw window edge when
not (the sentence test is then never reached); otherwise, if the window
contains `". "`, one past the last `". "` when past 30% and the raw edge
when not; otherwise the raw window edge.  In particular, on the
12,000-character scenario document with `max_size = 5000` and a fenced code
block spanning characters 4800–5100, the first cut falls at 4800 — before
the fence, not inside it. -/
theorem smart_chunk_cut_rule (cs : ℕ) (w : List Char) :
    (∀ cb, rfindSub w "```".toList = some cb → 3 * cs < 10 * cb →
        smart_chunk_cut cs w = cb) ∧
    ((rfindSub w "```".toList = none ∨
        (∃ cb, rfindSub w "```".toList = some cb ∧ ¬ 3 * cs < 10 * cb)) →
      (∀ lb, rfindSub w "\n\n".toList = some lb →
          smart_chunk_cut cs w = if 3 * cs < 10 * lb then lb else cs) ∧
      (rfindSub w "\n\n".toList = none →
        (∀ lp, rfindSub w ". ".toList = some lp →
            smart_chunk_cut cs w
              = if 3 * cs < 10 * lp then lp + 1 else cs) ∧
        (rfindSub w ". ".toList = none → smart_chunk_cut cs w = cs))) ∧
    smart_chunk_cut 5000 (scenario_text.take 5000) = 4800 ∧
    (smart_chunk_markdown scenario_text 5000).head?
        = some (List.replicate 4800 'a') := by
  refine ⟨?_, ?_, scenario_cut, scenario_first_chunk⟩
  · intro cb hcb hpast
    rw [smart_chunk_cut, hcb]
    dsimp only
    rw [if_pos hpast]
  · intro hfence
    have hrest : smart_chunk_cut cs w = smart_chunk_cut_rest cs w := by
      rcases hfence with hnone | ⟨cb, hcb, hnp⟩
      · rw [smart_chunk_cut, hnone]
      · rw [smart_chunk_cut, hcb]
        dsimp only
        rw [if_neg hnp]
    refine ⟨?_, ?_⟩
    · intro lb hlb
      rw [hrest, smart_chunk_cut_rest, hlb]
    · intro hnn
      refine ⟨?_, ?_⟩
      · intro lp hlp
        rw [hrest, smart_chunk_cut_rest, hnn, hlp]
      · intro hps
        rw [hrest, smart_chunk_cut_rest, hnn, hps]

/-- Witness for C7 (amended), exercising the fence branch on a concrete
window whose last code fence (position 6) lies past 30% of `max_size = 10`. -/
theorem smart_chunk_cut_rule_witness :
    smart_chunk_cut 10 "ab. cd```efgh".toList = 6 :=
  (smart_chunk_cut_rule 10 "ab. cd```efgh".toList).1 6 (by decide) (by omega)

/-! ## Evaluation lemmas for the fallback orchestrators

Each lemma fixes one scenario of `make_chat_completion_with_fallback`
(primary client fine, primary circuit closed, primary retry loop failing
definitively with `pe`) and evaluates the call. -/

theorem chat_eval_disabled (env : ChatFallbackEnv) (st : CBState) (pe : String)
    (hclient : env.clientResult = Except.ok false)
    (hpopen : st.circuit_breaker_until env.primary_key = none)
    (hprim : run_attempts env.primaryOracle 0 3 = Except.error pe)
    (huf : env.use_fallback = false) :
    make_chat_completion_with_fallback env st
      = (Except.error pe,
         record_error st env.now env.threshold env.primary_key pe) := by
  have h1 := is_open_of_none st env.now env.primary_key hpopen
  simp only [make_chat_completion_with_fallback, h1, hclient, hprim, huf]
  simp

theorem chat_eval_circuit_open (env : ChatFallbackEnv) (st : CBState)
    (pe : String) (t : ℕ)
    (hclient : env.clientResult = Except.ok false)
    (hpopen : st.circuit_breaker_until env.primary_key = none)
    (hprim : run_attempts env.primaryOracle 0 3 = Except.error pe)
    (huf : env.use_fallback = true)
    (hsome : (record_error st env.now env.threshold
        env.primary_key pe).circuit_breaker_until env.fallback_key = some t)
    (hlt : env.now < t) :
    make_chat_completion_with_fallback env st
      = (Except.error "Both primary and fallback models have circuit breakers open",
         record_error st env.now env.threshold env.primary_key pe) := by
  have h1 := is_open_of_none st env.now env.primary_key hpopen
  have h2 := is_open_of_lt
    (record_error st env.now env.threshold env.primary_key pe) env.now t
    env.fallback_key hsome hlt
  simp only [make_chat_completion_with_fallback, h1, h2, hclient, hprim, huf]
  simp [h2]

theorem chat_eval_unconfigured (env : ChatFallbackEnv) (st : CBState)
    (pe : String)
    (hclient : env.clientResult = Except.ok false)
    (hpopen : st.circuit_breaker_until env.primary_key = none)
    (hprim : run_attempts env.primaryOracle 0 3 = Except.error pe)
    (huf : env.use_fallback = true)
    (hfopen : (record_error st env.now env.threshold
        env.primary_key pe).circuit_breaker_until env.fallback_key = none)
    (hcfg : env.fallback_configured = false) :
    make_chat_completion_with_fallback env st
      = (Except.error (chat_combined_error pe "Fallback model not configured"),
         record_error (record_error st env.now env.threshold env.primary_key pe)
           env.now env.threshold env.fallback_key
           "Fallback model not configured") := by
  have h1 := is_open_of_none st env.now env.primary_key hpopen
  have h2 := is_open_of_none
    (record_error st env.now env.threshold env.primary_key pe) env.now
    env.fallback_key hfopen
  simp only [make_chat_completion_with_fallback, h1, h2, hclient, hprim, huf,
    hcfg]
  simp [h2, hcfg]

theorem chat_eval_fallback_exhausted (env : ChatFallbackEnv) (st : CBState)
    (pe fe : String)
    (hclient : env.clientResult = Except.ok false)
    (hpopen : st.circuit_breaker_until env.primary_key = none)
    (hprim : run_attempts env.primaryOracle 0 3 = Except.error pe)
    (huf : env.use_fallback = true)
    (hfopen : (record_error st env.now env.threshold
        env.primary_key pe).circuit_breaker_until env.fallback_key = none)
    (hcfg : env.fallback_configured = true)
    (hfb : run_attempts env.fallbackOracle 0 3 = Except.error fe) :
    make_chat_completion_with_fallback env st
      = (Except.error (chat_combined_error pe fe),
         record_error
           (record_error
             (record_error st env.now env.threshold env.primary_key pe)
             env.now env.threshold env.fallback_key fe)
           env.now env.threshold env.fallback_key fe) := by
  have h1 := is_open_of_none st env.now env.primary_key hpopen
  have h2 := is_open_of_none
    (record_error st env.now env.threshold env.primary_key pe) env.now
    env.fallback_key hfopen
  simp only [make_chat_completion_with_fallback, h1, h2, hclient, hprim, huf,
    hcfg, hfb]
  simp [h2, hcfg, hfb]

theorem embeddings_eval_fallback_exhausted (env : EmbeddingFallbackEnv)
    (st : CBState) (texts : List String) (pe fe : String)
    (htexts : texts ≠ [])
    (hclient : env.clientResult = Except.ok false)
    (hpopen : st.circuit_breaker_until env.primary_key = none)
    (hprim : run_attempts env.primaryOracle 0 3 = Except.error pe)
    (huf : env.use_fallback = true)
    (hfopen : (record_error st env.now env.threshold
        env.primary_key pe).circuit_breaker_until env.fallback_key = none)
    (hcfg : env.fallback_configured = true)
    (hfb : run_attempts env.fallbackOracle 0 3 = Except.error fe) :
    create_embeddings_with_fallback env texts st
      = (Except.error (embedding_combined_error pe fe),
         record_error
           (record_error
             (record_error st env.now env.threshold env.primary_key pe)
             env.now env.threshold env.fallback_key fe)
           env.now env.threshold env.fallback_key fe) := by
  have hti : texts.isEmpty = false := by
    cases texts
    · exact absurd rfl htexts
    · rfl
  have h1 := is_open_of_none st env.now env.primary_key hpopen
  have h2 := is_open_of_none
    (record_error st env.now env.threshold env.primary_key pe) env.now
    env.fallback_key hfopen
  simp only [create_embeddings_with_fallback, hti, h1, h2, hclient, hprim,
    huf, hcfg, hfb]
  simp [h2, hcfg, hfb]

/-! ## Claim C2: fallback orchestrator error propagation -/

/-- **C2 counterexample**.  With fallback enabled and the fallback circuit
breaker open, a primary definitive failure `"boom 503"` makes the call raise
the fixed message `"Both primary and fallback models have circuit breakers
open"`, which does **not** contain the primary failure text — contradicting
the claim that every such failure raises a combined error referencing both
the primary and the fallback failure. -/
theorem make_chat_circuit_open_counterexample :
    (make_chat_completion_with_fallback chat_env_w cb_st_open_f).1
      = Except.error
          "Both primary and fallback models have circuit breakers open" ∧
    containsSub
        "Both primary and fallback models have circuit breakers open".toList
        "boom 503".toList = false :=
  ⟨rfl, by decide⟩

/-- **C2 (amended)**.  When the primary attempt fails definitively with
`pe`: if fallback is disabled the call raises exactly `pe`; if fallback is
enabled, then (a) with the fallback circuit open it raises the fixed
both-breakers-open error (which does not carry the underlying error texts),
(b) with the circuit closed and the fallback unconfigured it raises the
combined error of `pe` and `"Fallback model not configured"`, and (c) with
the fallback loop also exhausting its retries with `fe` it raises the
combined error of `pe` and `fe`; every combined error contains both
underlying error strings. -/
theorem make_chat_error_propagation (env : ChatFallbackEnv) (st : CBState)
    (pe : String)
    (hclient : env.clientResult = Except.ok false)
    (hpopen : st.circuit_breaker_until env.primary_key = none)
    (hprim : run_attempts env.primaryOracle 0 3 = Except.error pe) :
    (env.use_fallback = false →
        make_chat_completion_with_fallback env st
          = (Except.error pe,
             record_error st env.now env.threshold env.primary_key pe)) ∧
    (env.use_fallback = true →
      (∀ t, (record_error st env.now env.threshold
            env.primary_key pe).circuit_breaker_until env.fallback_key
              = some t →
          env.now < t →
          (make_chat_completion_with_fallback env st).1
            = Except.error
                "Both primary and fallback models have circuit breakers open") ∧
      ((record_error st env.now env.threshold
            env.primary_key pe).circuit_breaker_until env.fallback_key
              = none →
        (env.fallback_configured = false →
          (make_chat_completion_with_fallback env st).1
            = Except.error
                (chat_combined_error pe "Fallback model not configured")) ∧
        (∀ fe, env.fallback_configured = true →
            run_attempts env.fallbackOracle 0 3 = Except.error fe →
            (make_chat_completion_with_fallback env st).1
              = Except.error (chat_combined_error pe fe)))) ∧
    (∀ p f, containsSub (chat_combined_error p f).toList p.toList = true ∧
        containsSub (chat_combined_error p f).toList f.toList = true) := by
  refine ⟨?_, ?_, ?_⟩
  · intro huf
    exact chat_eval_disabled env st pe hclient hpopen hprim huf
  · intro huf
    refine ⟨?_, ?_⟩
    · intro t hsome hlt
      rw [chat_eval_circuit_open env st pe t hclient hpopen hprim huf hsome
        hlt]
    · intro hnone
      refine ⟨?_, ?_⟩
      · intro hcfg
        rw [chat_eval_unconfigured env st pe hclient hpopen hprim huf hnone
          hcfg]
      · intro fe hcfg hfb
        rw [chat_eval_fallback_exhausted env st pe fe hclient hpopen hprim
          huf hnone hcfg hfb]
  · intro p f
    constructor
    · rw [containsSub_infix_iff]
      have hsplit : (chat_combined_error p f).toList
          = "Both primary and fallback chat models failed. Primary: ".toList
            ++ p.toList ++ (". Fallback: ".toList ++ f.toList) := by
        simp [chat_combined_error, List.append_assoc]
      rw [hsplit]
      exact List.infix_append _ _ _
    · rw [containsSub_infix_iff]
      have hsplit : (chat_combined_error p f).toList
          = ("Both primary and fallback chat models failed. Primary: " ++ p
              ++ ". Fallback: ").toList ++ f.toList := by
        simp [chat_combined_error, List.append_assoc]
      rw [hsplit]
      exact (List.suffix_append _ _).isInfix

/-- Witness for C2 (amended): with both loops exhausting (`"boom 503"`,
then `"fb 502"`), the call raises the combined error, which contains the
primary error string. -/
theorem make_chat_error_propagation_witness :
    (make_chat_completion_with_fallback chat_env_w cb_st_w).1
      = Except.error (chat_combined_error "boom 503" "fb 502") ∧
    containsSub (chat_combined_error "boom 503" "fb 502").toList
        "boom 503".toList = true := by
  obtain ⟨-, h2, h3⟩ := make_chat_error_propagation chat_env_w cb_st_w
    "boom 503" rfl rfl rfl
  exact ⟨((h2 rfl).2 rfl).2 "fb 502" rfl rfl,
    (h3 "boom 503" "fb 502").1⟩

/-! ## Claim C4: zero-vector last resort -/

/-- **C4** (error handling).  `create_embeddings_batch` is total (the
`except Exception` around the fallback system is the `.error` branch of the
model): the empty input yields `[]`; whenever the underlying fallback system
raises, the result is `len(texts)` copies of the `EMBEDDING_DIMENSIONS`-length
zero vector; a successful fallback result is passed through unchanged. -/
theorem create_embeddings_batch_last_resort (env : EmbeddingFallbackEnv)
    (st : CBState) :
    (create_embeddings_batch env [] st).1 = [] ∧
    (∀ (texts : List String) (e : String) (st' : CBState), texts ≠ [] →
        create_embeddings_with_fallback env texts st
          = (Except.error e, st') →
        create_embeddings_batch env texts st
          = (List.replicate texts.length (List.replicate env.target_dims 0),
             st')) ∧
    (∀ (texts : List String) (embs : List (List ℚ)) (st' : CBState),
        texts ≠ [] →
        create_embeddings_with_fallback env texts st = (Except.ok embs, st') →
        create_embeddings_batch env texts st = (embs, st')) := by
  refine ⟨rfl, ?_, ?_⟩
  · intro texts e st' htexts heq
    have hti : texts.isEmpty = false := by
      cases texts
      · exact absurd rfl htexts
      · rfl
    rw [create_embeddings_batch, if_neg (by simp [hti]), heq]
  · intro texts embs st' htexts heq
    have hti : texts.isEmpty = false := by
      cases texts
      · exact absurd rfl htexts
      · rfl
    rw [create_embeddings_batch, if_neg (by simp [hti]), heq]

/-- Witness for C4: with both embedding loops exhausting, one text yields
one 5-dimensional zero vector, and the empty input yields `[]`. -/
theorem create_embeddings_batch_last_resort_witness :
    (create_embeddings_batch emb_env_w [] cb_st_w).1 = [] ∧
    (create_embeddings_batch emb_env_w ["a"] cb_st_w).1
      = List.replicate 1 (List.replicate 5 0) := by
  have heq := embeddings_eval_fallback_exhausted emb_env_w cb_st_w ["a"]
    "boom 503" "fb 502" (by decide) rfl rfl rfl rfl rfl rfl rfl
  obtain ⟨h1, h2, -⟩ := create_embeddings_batch_last_resort emb_env_w cb_st_w
  refine ⟨h1, ?_⟩
  rw [h2 ["a"] (embedding_combined_error "boom 503" "fb 502") _
    (by decide) heq]
  rfl

/-! ## Claim C9: double record_error on fallback exhaustion -/

/-- **C9** (implicit).  In both orchestrators, when the fallback loop fails
definitively (`record_error` inside the loop, then `raise`, then
`record_error` again in the enclosing handler), the fallback key receives
exactly two `record_error` calls in that one invocation — the trace gains
two `recordError` events for the fallback key — and, the error being
retryable, the fallback key's consecutive-error counter grows by 2, not
by 1. -/
theorem fallback_exhaustion_double_record (env : ChatFallbackEnv)
    (enve : EmbeddingFallbackEnv) (st ste : CBState) (texts : List String)
    (pe fe pe' fe' : String)
    (hclient : env.clientResult = Except.ok false)
    (hpopen : st.circuit_breaker_until env.primary_key = none)
    (hprim : run_attempts env.primaryOracle 0 3 = Except.error pe)
    (huf : env.use_fallback = true)
    (hkeys : env.fallback_key ≠ env.primary_key)
    (hfopen : st.circuit_breaker_until env.fallback_key = none)
    (hcfg : env.fallback_configured = true)
    (hfb : run_attempts env.fallbackOracle 0 3 = Except.error fe)
    (hret : is_retryable_error fe.toList = true)
    (htexts : texts ≠ [])
    (hclient' : enve.clientResult = Except.ok false)
    (hpopen' : ste.circuit_breaker_until enve.primary_key = none)
    (hprim' : run_attempts enve.primaryOracle 0 3 = Except.error pe')
    (huf' : enve.use_fallback = true)
    (hkeys' : enve.fallback_key ≠ enve.primary_key)
    (hfopen' : ste.circuit_breaker_until enve.fallback_key = none)
    (hcfg' : enve.fallback_configured = true)
    (hfb' : run_attempts enve.fallbackOracle 0 3 = Except.error fe')
    (hret' : is_retryable_error fe'.toList = true) :
    ((make_chat_completion_with_fallback env st).2.trace.countP
        (isRecordErrorFor env.fallback_key)
      = st.trace.countP (isRecordErrorFor env.fallback_key) + 2) ∧
    ((make_chat_completion_with_fallback env st).2.consecutive_errors
        env.fallback_key
      = st.consecutive_errors env.fallback_key + 2) ∧
    ((create_embeddings_with_fallback enve texts ste).2.trace.countP
        (isRecordErrorFor enve.fallback_key)
      = ste.trace.countP (isRecordErrorFor enve.fallback_key) + 2) ∧
    ((create_embeddings_with_fallback enve texts ste).2.consecutive_errors
        enve.fallback_key
      = ste.consecutive_errors enve.fallback_key + 2) := by
  have hfo1 : (record_error st env.now env.threshold
      env.primary_key pe).circuit_breaker_until env.fallback_key = none := by
    rw [record_error_breaker_ne st env.now env.threshold env.primary_key pe
      env.fallback_key hkeys]
    exact hfopen
  have hfo1' : (record_error ste enve.now enve.threshold
      enve.primary_key pe').circuit_breaker_until enve.fallback_key
        = none := by
    rw [record_error_breaker_ne ste enve.now enve.threshold enve.primary_key
      pe' enve.fallback_key hkeys']
    exact hfopen'
  have heval := chat_eval_fallback_exhausted env st pe fe hclient hpopen
    hprim huf hfo1 hcfg hfb
  have heval' := embeddings_eval_fallback_exhausted enve ste texts pe' fe'
    htexts hclient' hpopen' hprim' huf' hfo1' hcfg' hfb'
  have hself : isRecordErrorFor env.fallback_key
      (CallEv.recordError env.fallback_key fe) = true := by
    simp [isRecordErrorFor]
  have hother : isRecordErrorFor env.fallback_key
      (CallEv.recordError env.primary_key pe) = false := by
    simp [isRecordErrorFor]
    exact fun h => hkeys h.symm
  have hself' : isRecordErrorFor enve.fallback_key
      (CallEv.recordError enve.fallback_key fe') = true := by
    simp [isRecordErrorFor]
  have hother' : isRecordErrorFor enve.fallback_key
      (CallEv.recordError enve.primary_key pe') = false := by
    simp [isRecordErrorFor]
    exact fun h => hkeys' h.symm
  refine ⟨?_, ?_, ?_, ?_⟩
  · rw [heval]
    simp only [record_error_trace, List.countP_append, List.countP_cons,
      List.countP_nil, hself, hother, Bool.false_eq_true, if_false, if_true]
  · rw [heval]
    rw [record_error_counter_self _ _ _ _ _ hret,
      record_error_counter_self _ _ _ _ _ hret,
      record_error_counter_ne st env.now env.threshold env.primary_key pe
        env.fallback_key hkeys]
  · rw [heval']
    simp only [record_error_trace, List.countP_append, List.countP_cons,
      List.countP_nil, hself', hother', Bool.false_eq_true, if_false,
      if_true]
  · rw [heval']
    rw [record_error_counter_self _ _ _ _ _ hret',
      record_error_counter_self _ _ _ _ _ hret',
      record_error_counter_ne ste enve.now enve.threshold enve.primary_key
        pe' enve.fallback_key hkeys']

/-- Witness for C9 on the concrete exhausting environments: the fallback
keys end with counter 2 and exactly two `recordError` trace events. -/
theorem fallback_exhaustion_double_record_witness :
    ((make_chat_completion_with_fallback chat_env_w cb_st_w).2.trace.countP
        (isRecordErrorFor chat_env_w.fallback_key)
      = cb_st_w.trace.countP (isRecordErrorFor chat_env_w.fallback_key)
          + 2) ∧
    ((make_chat_completion_with_fallback chat_env_w cb_st_w).2.consecutive_errors
        chat_env_w.fallback_key
      = cb_st_w.consecutive_errors chat_env_w.fallback_key + 2) ∧
    ((create_embeddings_with_fallback emb_env_w ["a"]
        cb_st_w).2.trace.countP (isRecordErrorFor emb_env_w.fallback_key)
      = cb_st_w.trace.countP (isRecordErrorFor emb_env_w.fallback_key)
          + 2) ∧
    ((create_embeddings_with_fallback emb_env_w ["a"]
        cb_st_w).2.consecutive_errors emb_env_w.fallback_key
      = cb_st_w.consecutive_errors emb_env_w.fallback_key + 2) :=
  fallback_exhaustion_double_record chat_env_w emb_env_w cb_st_w cb_st_w
    ["a"] "boom 503" "fb 502" "boom 503" "fb 502" rfl rfl rfl rfl
    (by decide) rfl rfl rfl (by decide) (by decide) rfl rfl
    rfl rfl (by decide) rfl rfl rfl (by decide)

end Crawl4ai
